import Mathlib

/-!
Shallow embedding of the IoT Attendance Session Coordinator of the Stuma
repository (src/server/controllers/iot.controller.js) together with proofs
of the specified properties.

The controller keeps an in-memory `Map` of sessions (`activeSessions`),
keyed by `sessionId`, and exposes the handlers `startSession`,
`stopSession`, `getCurrentStudent`, `markAttendance`, `nextStudent`,
`getSessionStatus`, `skipStudent` and `getActiveSession`.  Each handler is
embedded here as a pure function from the registry (a list of sessions in
Map insertion order) and the request inputs to the new registry plus the
response.  External collaborators (the Mongoose models `Class`, `Student`,
`Attendance`) are modelled by explicit inputs: the precondition bits that
`startSession` reads from them, a `storeOk` flag telling whether
`Attendance.create` succeeds (it throws otherwise), and an output
component recording the document handed to `Attendance.create`, if any.
-/

namespace Stuma

/-- Attendance outcome, the JS strings "present" / "absent". -/
inductive Status where
  | present
  | absent
deriving DecidableEq, Repr

/-- One roster entry as snapshotted by `startSession`:
`{_id, name, rollNo, section}`. -/
structure Student where
  id : String
  name : String
  rollNo : Nat
  sec : String
deriving DecidableEq, Repr

/-- The `session.records` object: a finite map from student id to outcome,
kept as an association list with at most one entry per key (JS object
semantics: assignment overwrites in place, otherwise appends). -/
abbrev Records := List (String × Status)

/-- Read `records[key]` (`undefined` becomes `none`). -/
def recLookup : Records → String → Option Status
  | [], _ => none
  | (k, v) :: rest, key => if k = key then some v else recLookup rest key

/-- Write `records[key] = v` (overwrite in place, else append). -/
def recSet : Records → String → Status → Records
  | [], key, v => [(key, v)]
  | (k, w) :: rest, key, v =>
      if k = key then (k, v) :: rest else (k, w) :: recSet rest key v

/-- Number of entries of `records` holding outcome `v`
(`Object.values(records).filter(s => s === v).length`). -/
def countStatus (r : Records) (v : Status) : Nat :=
  (r.filter (fun p => decide (p.2 = v))).length

/-- One entry of the `activeSessions` map (the object built by
`startSession`). -/
structure Session where
  sessionId : String
  classId : String
  date : String
  teacherId : String
  students : List Student
  currentIndex : Nat
  active : Bool
  hasStudent : Bool
  records : Records
  createdAt : Nat
deriving DecidableEq, Repr

/-- The `activeSessions` map, in insertion order. -/
abbrev Registry := List Session

/-- Lookup, the call activeSessions.get(id). -/
def Registry.lookup (r : Registry) (id : String) : Option Session :=
  List.find? (fun s => decide (s.sessionId = id)) r

/-- Deletion, the call activeSessions.delete(id). -/
def Registry.erase (r : Registry) (id : String) : Registry :=
  List.filter (fun s => !(decide (s.sessionId = id))) r

/-- Mutating the session object held in the map in place: every entry with
the same `sessionId` is replaced, all other entries are untouched. -/
def Registry.update (r : Registry) (s : Session) : Registry :=
  List.map (fun t => if t.sessionId = s.sessionId then s else t) r

/-- Insertion, the call activeSessions.set(s.sessionId, s): replace in place when the key is
present, append otherwise. -/
def Registry.set (r : Registry) (s : Session) : Registry :=
  if List.any r (fun t => decide (t.sessionId = s.sessionId)) then
    Registry.update r s
  else
    r ++ [s]

deriving instance DecidableEq for Except

/-- Error responses of `startSession`. -/
inductive StartError where
  | classNotFound
  | notOwner
  | attendanceExists
  | noStudents
deriving DecidableEq, Repr

/-- Success response of `startSession`. -/
structure StartOk where
  sessionId : String
  totalStudents : Nat
  hasStudent : Bool
deriving DecidableEq, Repr

/-- The facts `startSession` obtains from its external collaborators
before touching the registry: `Class.findById` (existence and ownership),
`Attendance.findOne` for `(classId, date)`, and the roster returned by
`Student.find({teacher}).sort({rollNo: 1})`. -/
structure StartEnv where
  classExists : Bool
  classOwned : Bool
  attendanceExists : Bool
  roster : List Student
deriving Repr

/-- The session object `startSession` inserts. -/
def mkSession (sessionId classId date teacherId : String)
    (roster : List Student) (now : Nat) : Session :=
  { sessionId := sessionId
    classId := classId
    date := date
    teacherId := teacherId
    students := roster
    currentIndex := 0
    active := true
    hasStudent := false
    records := []
    createdAt := now }

/-- The eviction loop of `startSession`: delete every registry entry whose
session belongs to this teacher and is still active. -/
def evictActive (r : Registry) (teacherId : String) : Registry :=
  List.filter (fun s => !(decide (s.teacherId = teacherId) && s.active)) r

/-- Handler `startSession` (iot.controller.js).  Here `newId` is the value produced by
`generateSessionId()` and `now` the creation timestamp. -/
def startSession (r : Registry) (teacherId classId date : String)
    (env : StartEnv) (newId : String) (now : Nat) :
    Registry × Except StartError StartOk :=
  if env.classExists = false then (r, .error .classNotFound)
  else if env.classOwned = false then (r, .error .notOwner)
  else if env.attendanceExists then (r, .error .attendanceExists)
  else if env.roster.isEmpty then (r, .error .noStudents)
  else
    let r1 := evictActive r teacherId
    let s := mkSession newId classId date teacherId env.roster now
    (Registry.set r1 s, .ok ⟨newId, env.roster.length, false⟩)

/-- Error responses of `stopSession`.  `serverFailure` is the catch-all
500 branch, reached when `Attendance.create` throws. -/
inductive StopError where
  | sessionNotFound
  | notOwner
  | serverFailure
deriving DecidableEq, Repr

/-- Success response of `stopSession`: either the saved summary or the
"ended without saving" message. -/
inductive StopOk where
  | saved (total present absent : Nat)
  | notSaved
deriving DecidableEq, Repr

/-- The document handed to `Attendance.create`. -/
structure AttendanceDoc where
  classId : String
  teacherId : String
  date : String
  records : List (String × Status)
deriving DecidableEq, Repr

/-- The record list `stopSession` builds: one `{student, status}` entry
per roster member, defaulting to `absent` when unmarked. -/
def buildRecords (s : Session) : List (String × Status) :=
  s.students.map (fun st => (st.id, (recLookup s.records st.id).getD .absent))

/-- Handler `stopSession` (iot.controller.js).  The third component is the
document handed to `Attendance.create`, when the call is made and
succeeds; `storeOk = false` makes `Attendance.create` throw, landing in
the catch block with the session already mutated but not yet deleted. -/
def stopSession (r : Registry) (sessionId teacherId : String)
    (saveProgress : Bool) (storeOk : Bool) :
    Registry × Except StopError StopOk × Option AttendanceDoc :=
  match Registry.lookup r sessionId with
  | none => (r, .error .sessionNotFound, none)
  | some session =>
    if session.teacherId ≠ teacherId then (r, .error .notOwner, none)
    else
      let s1 := { session with active := false, hasStudent := false }
      let r1 := Registry.update r s1
      let recs := buildRecords session
      if saveProgress && !session.records.isEmpty then
        if storeOk then
          let presentCount :=
            (recs.filter (fun p => decide (p.2 = Status.present))).length
          (Registry.erase r1 sessionId,
           .ok (.saved recs.length presentCount (recs.length - presentCount)),
           some ⟨session.classId, teacherId, session.date, recs⟩)
        else
          (r1, .error .serverFailure, none)
      else
        (Registry.erase r1 sessionId, .ok .notSaved, none)

/-- Response of `getCurrentStudent` (the unauthenticated device poll). -/
inductive CurrentAnswer where
  | noSession
  | ended
  | done (total present absent : Nat)
  | waiting
  | assigned (name : String) (roll : Nat) (sec : String)
      (attendanceId : String) (position total : Nat)
deriving DecidableEq, Repr

/-- Handler `getCurrentStudent` (iot.controller.js): read-only projection of one
session for the polling device. -/
def getCurrentStudent (r : Registry) (sessionId : String) : CurrentAnswer :=
  match Registry.lookup r sessionId with
  | none => .noSession
  | some session =>
    if session.active = false then .ended
    else if h : session.students.length ≤ session.currentIndex then
      .done session.students.length
        (countStatus session.records .present)
        (countStatus session.records .absent)
    else if session.hasStudent = false then .waiting
    else
      let cur := session.students.get ⟨session.currentIndex, Nat.lt_of_not_le h⟩
      .assigned cur.name cur.rollNo cur.sec
        (sessionId ++ ":" ++ cur.id)
        (session.currentIndex + 1) session.students.length

/-- Error responses of `markAttendance`.  `serverFailure` is the catch
block, reached when `session.students[session.currentIndex]` is
`undefined` (no bounds check precedes the access in `markAttendance`). -/
inductive MarkError where
  | sessionNotFound
  | notActive
  | noStudentAssigned
  | studentMismatch
  | serverFailure
deriving DecidableEq, Repr

/-- Success response of `markAttendance`: `status: "done"` with the
summary, or `status: "waiting"` with position/total. -/
inductive MarkOk where
  | done (total present absent : Nat)
  | waiting (position total : Nat)
deriving DecidableEq, Repr

/-- Handler `markAttendance` (iot.controller.js), after the request fields have
been validated and the `attendanceId` token split into
`(sessionId, studentId)`. -/
def markAttendance (r : Registry) (sessionId studentId : String)
    (status : Status) : Registry × Except MarkError MarkOk :=
  match Registry.lookup r sessionId with
  | none => (r, .error .sessionNotFound)
  | some session =>
    if session.active = false then (r, .error .notActive)
    else if session.hasStudent = false then (r, .error .noStudentAssigned)
    else
      match session.students.get? session.currentIndex with
      | none => (r, .error .serverFailure)
      | some cur =>
        if cur.id ≠ studentId then (r, .error .studentMismatch)
        else
          let s1 := { session with
            records := recSet session.records studentId status
            currentIndex := session.currentIndex + 1
            hasStudent := false }
          let r1 := Registry.update r s1
          if session.students.length ≤ session.currentIndex + 1 then
            (r1, .ok (.done session.students.length
              (countStatus s1.records .present)
              (countStatus s1.records .absent)))
          else
            (r1, .ok (.waiting (session.currentIndex + 2)
              session.students.length))

/-- Error responses of `nextStudent`. -/
inductive NextError where
  | sessionNotFound
  | unauthorized
  | notActive
deriving DecidableEq, Repr

/-- Success response of `nextStudent`: either `isDone`, or the assigned
student (with `already = true` when a student was already assigned and the
call only re-read it). -/
inductive NextOk where
  | done
  | assigned (already : Bool) (currentStudent : Student)
      (position total : Nat)
deriving DecidableEq, Repr

/-- Handler `nextStudent` (iot.controller.js): the Next Student action of
the operator, the only transition that sets `hasStudent := true`. -/
def nextStudent (r : Registry) (sessionId teacherId : String) :
    Registry × Except NextError NextOk :=
  match Registry.lookup r sessionId with
  | none => (r, .error .sessionNotFound)
  | some session =>
    if session.teacherId ≠ teacherId then (r, .error .unauthorized)
    else if session.active = false then (r, .error .notActive)
    else if h : session.students.length ≤ session.currentIndex then
      (r, .ok .done)
    else if session.hasStudent then
      let cur := session.students.get ⟨session.currentIndex, Nat.lt_of_not_le h⟩
      (r, .ok (.assigned true cur (session.currentIndex + 1)
        session.students.length))
    else
      let cur := session.students.get ⟨session.currentIndex, Nat.lt_of_not_le h⟩
      let s1 := { session with hasStudent := true }
      (Registry.update r s1,
       .ok (.assigned false cur (session.currentIndex + 1)
         session.students.length))

/-- The operator status view served by `getSessionStatus`. -/
structure StatusView where
  sessionId : String
  active : Bool
  hasStudent : Bool
  classId : String
  date : String
  totalStudents : Nat
  currentIndex : Nat
  currentStudent : Option Student
  present : Nat
  absent : Nat
  pending : Nat
  records : Records
deriving DecidableEq, Repr

/-- Handler `getSessionStatus` (iot.controller.js): read-only operator poll. -/
def getSessionStatus (r : Registry) (sessionId teacherId : String) :
    Except NextError StatusView :=
  match Registry.lookup r sessionId with
  | none => .error .sessionNotFound
  | some session =>
    if session.teacherId ≠ teacherId then .error .unauthorized
    else
      let presentCount := countStatus session.records .present
      let absentCount := countStatus session.records .absent
      .ok
        { sessionId := sessionId
          active := session.active
          hasStudent := session.hasStudent
          classId := session.classId
          date := session.date
          totalStudents := session.students.length
          currentIndex := session.currentIndex
          currentStudent :=
            if session.active && decide (session.currentIndex < session.students.length)
            then session.students.get? session.currentIndex
            else none
          present := presentCount
          absent := absentCount
          pending := session.students.length - presentCount - absentCount
          records := session.records }

/-- Error responses of `skipStudent`. -/
inductive SkipError where
  | sessionNotFound
  | unauthorized
  | notActive
  | noMoreStudents
deriving DecidableEq, Repr

/-- Success response of `skipStudent`. -/
structure SkipOk where
  isDone : Bool
  nextUp : Option Student
deriving DecidableEq, Repr

/-- Handler `skipStudent` (iot.controller.js): the operator marks the student at the
cursor absent and advances.  Note that, unlike `markAttendance`, the
handler never reads `session.hasStudent` before mutating. -/
def skipStudent (r : Registry) (sessionId teacherId : String) :
    Registry × Except SkipError SkipOk :=
  match Registry.lookup r sessionId with
  | none => (r, .error .sessionNotFound)
  | some session =>
    if session.teacherId ≠ teacherId then (r, .error .unauthorized)
    else if session.active = false then (r, .error .notActive)
    else if h : session.students.length ≤ session.currentIndex then
      (r, .error .noMoreStudents)
    else
      let cur := session.students.get ⟨session.currentIndex, Nat.lt_of_not_le h⟩
      let s1 := { session with
        records := recSet session.records cur.id .absent
        currentIndex := session.currentIndex + 1
        hasStudent := false }
      let r1 := Registry.update r s1
      if session.students.length ≤ session.currentIndex + 1 then
        (r1, .ok ⟨true, none⟩)
      else
        (r1, .ok ⟨false, session.students.get? (session.currentIndex + 1)⟩)

/-- Response of the unauthenticated `getActiveSession` discovery call. -/
inductive ActiveAnswer where
  | noActive
  | activeFound (sessionId : String)
deriving DecidableEq, Repr

/-- The discovery loop of `getActiveSession`: walk the map in insertion
order keeping the active session with the strictly greatest `createdAt`
seen so far (ties keep the earlier entry). -/
def pickActive : Option Session → List Session → Option Session
  | best, [] => best
  | best, s :: rest =>
    if s.active then
      match best with
      | none => pickActive (some s) rest
      | some b =>
        if b.createdAt < s.createdAt then pickActive (some s) rest
        else pickActive (some b) rest
    else pickActive best rest

/-- Handler `getActiveSession` (iot.controller.js): unauthenticated discovery of
the most recently created active session; returns only its id. -/
def getActiveSession (r : Registry) : ActiveAnswer :=
  match pickActive none r with
  | none => .noActive
  | some s => .activeFound s.sessionId

/-! ### Operation sequences on one session

`Op` lists the operations a caller can aim at one session: the assign
(`nextStudent`), skip and stop calls of the operator, the mark call of the
device, and the two read-only polls.  `applyOp` runs one of them against the registry
and keeps only the registry (responses are dropped); `runOps` folds a
whole call sequence. -/

inductive Op where
  | assign (teacherId : String)
  | mark (studentId : String) (outcome : Status)
  | skipCur (teacherId : String)
  | current
  | statusView (teacherId : String)
  | stop (teacherId : String) (persist storeOk : Bool)
deriving Repr

/-- Registry effect of one operation aimed at session `sessionId`. -/
def applyOp (sessionId : String) (r : Registry) : Op → Registry
  | .assign t => (nextStudent r sessionId t).1
  | .mark sid o => (markAttendance r sessionId sid o).1
  | .skipCur t => (skipStudent r sessionId t).1
  | .current => r
  | .statusView _ => r
  | .stop t p ok => (stopSession r sessionId t p ok).1

/-- Registry effect of a sequence of operations aimed at one session. -/
def runOps (sessionId : String) (r : Registry) : List Op → Registry
  | [] => r
  | op :: rest => runOps sessionId (applyOp sessionId r op) rest

/-- Repeated `nextStudent` calls by the same teacher, n of them. -/
def assignIter (sessionId teacherId : String) : Nat → Registry → Registry
  | 0, r => r
  | n + 1, r => assignIter sessionId teacherId n (nextStudent r sessionId teacherId).1

/-! ### Registry-level step relation

`RegOp` additionally includes `startSession`, so that the registry states
reachable from the empty map by any interleaving of handler calls can be
described. -/

inductive RegOp where
  | start (teacherId classId date : String) (env : StartEnv)
      (newId : String) (now : Nat)
  | stop (sessionId teacherId : String) (persist storeOk : Bool)
  | assign (sessionId teacherId : String)
  | mark (sessionId studentId : String) (outcome : Status)
  | skipCur (sessionId teacherId : String)

/-- Registry effect of one handler call. -/
def applyRegOp (r : Registry) : RegOp → Registry
  | .start t c d env nid now => (startSession r t c d env nid now).1
  | .stop id t p ok => (stopSession r id t p ok).1
  | .assign id t => (nextStudent r id t).1
  | .mark id sid o => (markAttendance r id sid o).1
  | .skipCur id t => (skipStudent r id t).1

/-- Registry states reachable from the empty `activeSessions` map. -/
inductive Reachable : Registry → Prop where
  | init : Reachable []
  | step (r : Registry) (op : RegOp) : Reachable r → Reachable (applyRegOp r op)

/-- Number of registry entries that are active sessions of `t`. -/
def activeCount (r : Registry) (t : String) : Nat :=
  List.countP (fun s => decide (s.teacherId = t) && s.active) r

/-- The registry keys. -/
def sessionIds (r : Registry) : List String :=
  r.map Session.sessionId

/-- Registry well-formedness: keys are unique (a JS `Map` holds one entry
per key) and every teacher has at most one active session. -/
def WellFormed (r : Registry) : Prop :=
  (sessionIds r).Nodup ∧ ∀ t, activeCount r t ≤ 1

/-! ### Concrete fixtures for witnesses and counterexamples -/

/-- Fixture student. -/
def stA : Student := ⟨"stA", "Alice", 1, "A"⟩

/-- Fixture student. -/
def stB : Student := ⟨"stB", "Bob", 2, "A"⟩

/-- Fixture session in the WAITING state, nothing recorded yet. -/
def sessW : Session :=
  { sessionId := "sess1"
    classId := "c1"
    date := "2024-01-01"
    teacherId := "t1"
    students := [stA, stB]
    currentIndex := 0
    active := true
    hasStudent := false
    records := []
    createdAt := 5 }

/-- Fixture session with one recorded outcome. -/
def sessP : Session :=
  { sessW with records := [("stA", Status.present)], currentIndex := 1 }

/-- Fixture session in the ASSIGNED state. -/
def sessA : Session := { sessW with hasStudent := true }

/-- Fixture session of the same teacher, created later. -/
def sess2 : Session := { sessW with sessionId := "sess2", createdAt := 9 }

/-- Fixture call sequence: assign, device mark, operator skip. -/
def opsABC : List Op := [.assign "t1", .mark "stA" .present, .skipCur "t1"]

/-- The session reached from `sessW` by `opsABC`. -/
def sessDone : Session :=
  { sessW with currentIndex := 2
               records := [("stA", Status.present), ("stB", Status.absent)] }

/-! ### Basic lemmas about the records map and the registry -/

theorem recLookup_set_self (r : Records) (key : String) (v : Status) :
    recLookup (recSet r key v) key = some v := by
  induction r with
  | nil => simp [recSet, recLookup]
  | cons p rest ih =>
    by_cases h : p.1 = key
    · simp [recSet, recLookup, h]
    · simp [recSet, recLookup, h, ih]

theorem recLookup_set_ne (r : Records) (key other : String) (v : Status)
    (h : other ≠ key) :
    recLookup (recSet r key v) other = recLookup r other := by
  induction r with
  | nil => simp [recSet, recLookup, Ne.symm h]
  | cons p rest ih =>
    by_cases hk : p.1 = key
    · simp [recSet, recLookup, hk, Ne.symm h]
    · by_cases ho : p.1 = other <;>
        simp [recSet, recLookup, hk, ho, ih, h, Ne.symm h]

theorem lookup_cons (s : Session) (r : Registry) (id : String) :
    Registry.lookup (s :: r) id =
      if s.sessionId = id then some s else Registry.lookup r id := by
  by_cases h : s.sessionId = id <;>
    simp [Registry.lookup, List.find?, h]

theorem lookup_update (r : Registry) (s1 : Session) (id : String) :
    Registry.lookup (Registry.update r s1) id =
      (Registry.lookup r id).map
        (fun t => if t.sessionId = s1.sessionId then s1 else t) := by
  unfold Registry.lookup Registry.update
  rw [List.find?_map]
  have hfun : ((fun s => decide (s.sessionId = id)) ∘
      (fun t => if t.sessionId = s1.sessionId then s1 else t)) =
      fun s => decide (s.sessionId = id) := by
    funext t
    by_cases h : t.sessionId = s1.sessionId <;> simp [h]
  rw [hfun]

theorem lookup_update_self (r : Registry) (s1 s : Session)
    (h : Registry.lookup r s1.sessionId = some s) :
    Registry.lookup (Registry.update r s1) s1.sessionId = some s1 := by
  have hm : s.sessionId = s1.sessionId := by
    have := List.find?_some h
    simpa using this
  simp [lookup_update, h, hm]

theorem lookup_update_other (r : Registry) (s1 : Session) (id : String)
    (h : id ≠ s1.sessionId) :
    Registry.lookup (Registry.update r s1) id = Registry.lookup r id := by
  rw [lookup_update]
  cases hl : Registry.lookup r id with
  | none => rfl
  | some t =>
    have hm : t.sessionId = id := by
      have := List.find?_some hl
      simpa using this
    have : ¬ t.sessionId = s1.sessionId := by rw [hm]; exact h
    simp [this]

theorem lookup_erase_self (r : Registry) (id : String) :
    Registry.lookup (Registry.erase r id) id = none := by
  induction r with
  | nil => rfl
  | cons a rest ih =>
    by_cases h : a.sessionId = id
    · simpa [Registry.erase, List.filter_cons, h] using ih
    · simpa [Registry.erase, List.filter_cons, h, lookup_cons] using ih

theorem lookup_erase_other (r : Registry) (id other : String)
    (h : other ≠ id) :
    Registry.lookup (Registry.erase r id) other = Registry.lookup r other := by
  induction r with
  | nil => rfl
  | cons a rest ih =>
    simp only [Registry.erase] at ih ⊢
    by_cases hid : a.sessionId = id
    · have hno : ¬ a.sessionId = other := by rw [hid]; exact Ne.symm h
      simp [List.filter_cons, hid, hno, lookup_cons, ih, Ne.symm h]
    · simp [List.filter_cons, hid, lookup_cons, ih]

theorem lookup_mem (r : Registry) (id : String) (s : Session)
    (h : Registry.lookup r id = some s) : s ∈ r ∧ s.sessionId = id := by
  refine ⟨List.mem_of_find?_eq_some h, ?_⟩
  have := List.find?_some h
  simpa using this

theorem lookup_update_variant (r : Registry) (id : String) (s s1 : Session)
    (h : Registry.lookup r id = some s) (hid : s1.sessionId = s.sessionId) :
    Registry.lookup (Registry.update r s1) id = some s1 := by
  have hsid : s.sessionId = id := (lookup_mem r id s h).2
  have hq : id = s1.sessionId := by rw [hid, hsid]
  rw [hq]
  exact lookup_update_self r s1 s (by rw [← hq]; exact h)

/-! ### Shape lemmas: the registry effect of each handler -/

theorem markAttendance_spec (r : Registry) (id sid : String) (o : Status) :
    (∃ e, markAttendance r id sid o = (r, .error e)) ∨
    (∃ s cur m, Registry.lookup r id = some s ∧
      s.students.get? s.currentIndex = some cur ∧ cur.id = sid ∧
      s.active = true ∧ s.hasStudent = true ∧
      markAttendance r id sid o =
        (Registry.update r
          { s with records := recSet s.records sid o
                   currentIndex := s.currentIndex + 1
                   hasStudent := false }, .ok m)) := by
  unfold markAttendance
  cases hl : Registry.lookup r id with
  | none => exact Or.inl ⟨_, rfl⟩
  | some s =>
    dsimp only
    by_cases ha : s.active = false
    · rw [if_pos ha]; exact Or.inl ⟨_, rfl⟩
    · rw [if_neg ha]
      by_cases hs : s.hasStudent = false
      · rw [if_pos hs]; exact Or.inl ⟨_, rfl⟩
      · rw [if_neg hs]
        cases hg : s.students.get? s.currentIndex with
        | none => exact Or.inl ⟨_, rfl⟩
        | some cur =>
          dsimp only
          by_cases hid : cur.id ≠ sid
          · rw [if_pos hid]; exact Or.inl ⟨_, rfl⟩
          · rw [if_neg hid]
            push_neg at hid
            have ha1 : s.active = true := by simpa using ha
            have hs1 : s.hasStudent = true := by simpa using hs
            by_cases hdone : s.students.length ≤ s.currentIndex + 1
            · rw [if_pos hdone]
              exact Or.inr ⟨s, cur, _, rfl, hg, hid, ha1, hs1, rfl⟩
            · rw [if_neg hdone]
              exact Or.inr ⟨s, cur, _, rfl, hg, hid, ha1, hs1, rfl⟩

theorem skipStudent_spec (r : Registry) (id t : String) :
    (∃ e, skipStudent r id t = (r, .error e)) ∨
    (∃ s res, ∃ h : s.currentIndex < s.students.length,
      Registry.lookup r id = some s ∧ s.teacherId = t ∧ s.active = true ∧
      skipStudent r id t =
        (Registry.update r
          { s with records := recSet s.records (s.students.get ⟨s.currentIndex, h⟩).id .absent
                   currentIndex := s.currentIndex + 1
                   hasStudent := false }, .ok res)) := by
  unfold skipStudent
  cases hl : Registry.lookup r id with
  | none => exact Or.inl ⟨_, rfl⟩
  | some s =>
    dsimp only
    by_cases ht : s.teacherId ≠ t
    · rw [if_pos ht]; exact Or.inl ⟨_, rfl⟩
    · rw [if_neg ht]
      push_neg at ht
      by_cases ha : s.active = false
      · rw [if_pos ha]; exact Or.inl ⟨_, rfl⟩
      · rw [if_neg ha]
        have ha1 : s.active = true := by simpa using ha
        by_cases hlen : s.students.length ≤ s.currentIndex
        · rw [dif_pos hlen]; exact Or.inl ⟨_, rfl⟩
        · rw [dif_neg hlen]
          by_cases hdone : s.students.length ≤ s.currentIndex + 1
          · rw [if_pos hdone]
            exact Or.inr ⟨s, _, Nat.lt_of_not_le hlen, rfl, ht, ha1, rfl⟩
          · rw [if_neg hdone]
            exact Or.inr ⟨s, _, Nat.lt_of_not_le hlen, rfl, ht, ha1, rfl⟩

theorem nextStudent_spec (r : Registry) (id t : String) :
    (nextStudent r id t).1 = r ∨
    (∃ s, ∃ h : s.currentIndex < s.students.length,
      Registry.lookup r id = some s ∧ s.teacherId = t ∧ s.active = true ∧
      s.hasStudent = false ∧
      nextStudent r id t =
        (Registry.update r { s with hasStudent := true },
         .ok (.assigned false (s.students.get ⟨s.currentIndex, h⟩)
           (s.currentIndex + 1) s.students.length))) := by
  unfold nextStudent
  cases hl : Registry.lookup r id with
  | none => exact Or.inl rfl
  | some s =>
    dsimp only
    by_cases ht : s.teacherId ≠ t
    · rw [if_pos ht]; exact Or.inl rfl
    · rw [if_neg ht]
      push_neg at ht
      by_cases ha : s.active = false
      · rw [if_pos ha]; exact Or.inl rfl
      · rw [if_neg ha]
        have ha1 : s.active = true := by simpa using ha
        by_cases hlen : s.students.length ≤ s.currentIndex
        · rw [dif_pos hlen]; exact Or.inl rfl
        · rw [dif_neg hlen]
          by_cases hs : s.hasStudent = true
          · rw [if_pos hs]; exact Or.inl rfl
          · rw [if_neg hs]
            have hs0 : s.hasStudent = false := by simpa using hs
            exact Or.inr ⟨s, Nat.lt_of_not_le hlen, rfl, ht, ha1, hs0, rfl⟩

theorem stopSession_spec (r : Registry) (id t : String) (p ok : Bool) :
    (∃ e, stopSession r id t p ok = (r, .error e, none)) ∨
    (∃ s, Registry.lookup r id = some s ∧ s.teacherId = t ∧
      (((stopSession r id t p ok).1 =
          Registry.update r { s with active := false, hasStudent := false } ∧
        (stopSession r id t p ok).2.1 = .error .serverFailure) ∨
       ((stopSession r id t p ok).1 =
          Registry.erase
            (Registry.update r { s with active := false, hasStudent := false }) id ∧
        ∃ res, (stopSession r id t p ok).2.1 = .ok res))) := by
  unfold stopSession
  cases hl : Registry.lookup r id with
  | none => exact Or.inl ⟨_, rfl⟩
  | some s =>
    dsimp only
    by_cases ht : s.teacherId ≠ t
    · rw [if_pos ht]; exact Or.inl ⟨_, rfl⟩
    · rw [if_neg ht]
      push_neg at ht
      by_cases hsave : (p && !s.records.isEmpty) = true
      · rw [if_pos hsave]
        cases ok with
        | false =>
          exact Or.inr ⟨s, rfl, ht, Or.inl ⟨rfl, rfl⟩⟩
        | true =>
          exact Or.inr ⟨s, rfl, ht, Or.inr ⟨rfl, _, rfl⟩⟩
      · rw [if_neg hsave]
        exact Or.inr ⟨s, rfl, ht, Or.inr ⟨rfl, _, rfl⟩⟩

theorem startSession_spec (r : Registry) (t c d : String) (env : StartEnv)
    (nid : String) (now : Nat) :
    (∃ e, startSession r t c d env nid now = (r, .error e)) ∨
    startSession r t c d env nid now =
      (Registry.set (evictActive r t) (mkSession nid c d t env.roster now),
       .ok ⟨nid, env.roster.length, false⟩) := by
  unfold startSession
  by_cases h1 : env.classExists = false
  · rw [if_pos h1]; exact Or.inl ⟨_, rfl⟩
  · rw [if_neg h1]
    by_cases h2 : env.classOwned = false
    · rw [if_pos h2]; exact Or.inl ⟨_, rfl⟩
    · rw [if_neg h2]
      by_cases h3 : env.attendanceExists = true
      · rw [if_pos h3]; exact Or.inl ⟨_, rfl⟩
      · rw [if_neg h3]
        by_cases h4 : env.roster.isEmpty = true
        · rw [if_pos h4]; exact Or.inl ⟨_, rfl⟩
        · rw [if_neg h4]; exact Or.inr rfl

/-! ### Cursor monotonicity machinery -/

theorem applyOp_not_found (id : String) (r : Registry) (op : Op)
    (h : Registry.lookup r id = none) : applyOp id r op = r := by
  cases op with
  | assign t => unfold applyOp nextStudent; rw [h]
  | mark sid o => unfold applyOp markAttendance; rw [h]
  | skipCur t => unfold applyOp skipStudent; rw [h]
  | current => rfl
  | statusView t => rfl
  | stop t p ok => unfold applyOp stopSession; rw [h]

theorem applyOp_cursor_mono (id : String) (r : Registry) (op : Op)
    (s s1 : Session) (h : Registry.lookup r id = some s)
    (h1 : Registry.lookup (applyOp id r op) id = some s1) :
    s.currentIndex ≤ s1.currentIndex := by
  cases op with
  | current =>
    replace h1 : Registry.lookup r id = some s1 := h1
    rw [h] at h1
    rw [Option.some.inj h1]
  | statusView t =>
    replace h1 : Registry.lookup r id = some s1 := h1
    rw [h] at h1
    rw [Option.some.inj h1]
  | assign t =>
    replace h1 : Registry.lookup (nextStudent r id t).1 id = some s1 := h1
    rcases nextStudent_spec r id t with heq | ⟨s0, hle, hl0, _, _, _, heq⟩
    · rw [heq, h] at h1
      rw [Option.some.inj h1]
    · have hs0 : s0 = s := Option.some.inj (hl0.symm.trans h)
      subst hs0
      rw [heq] at h1
      dsimp only at h1
      rw [lookup_update_variant r id s0 { s0 with hasStudent := true } h rfl] at h1
      rw [← Option.some.inj h1]
  | mark sid o =>
    replace h1 : Registry.lookup (markAttendance r id sid o).1 id = some s1 := h1
    rcases markAttendance_spec r id sid o with ⟨e, heq⟩ |
      ⟨s0, cur, m, hl0, _, _, _, _, heq⟩
    · rw [heq] at h1
      dsimp only at h1
      rw [h] at h1
      rw [Option.some.inj h1]
    · have hs0 : s0 = s := Option.some.inj (hl0.symm.trans h)
      subst hs0
      rw [heq] at h1
      dsimp only at h1
      rw [lookup_update_variant r id s0
        { s0 with records := recSet s0.records sid o
                  currentIndex := s0.currentIndex + 1
                  hasStudent := false } h rfl] at h1
      rw [← Option.some.inj h1]
      exact Nat.le_succ _
  | skipCur t =>
    replace h1 : Registry.lookup (skipStudent r id t).1 id = some s1 := h1
    rcases skipStudent_spec r id t with ⟨e, heq⟩ | ⟨s0, res, hle, hl0, _, _, heq⟩
    · rw [heq] at h1
      dsimp only at h1
      rw [h] at h1
      rw [Option.some.inj h1]
    · have hs0 : s0 = s := Option.some.inj (hl0.symm.trans h)
      subst hs0
      rw [heq] at h1
      dsimp only at h1
      rw [lookup_update_variant r id s0
        { s0 with records := recSet s0.records (s0.students.get ⟨s0.currentIndex, hle⟩).id .absent
                  currentIndex := s0.currentIndex + 1
                  hasStudent := false } h rfl] at h1
      rw [← Option.some.inj h1]
      exact Nat.le_succ _
  | stop t p ok =>
    replace h1 : Registry.lookup (stopSession r id t p ok).1 id = some s1 := h1
    rcases stopSession_spec r id t p ok with ⟨e, heq⟩ |
      ⟨s0, hl0, _, ⟨heq, _⟩ | ⟨heq, _⟩⟩
    · rw [heq] at h1
      dsimp only at h1
      rw [h] at h1
      rw [Option.some.inj h1]
    · have hs0 : s0 = s := Option.some.inj (hl0.symm.trans h)
      subst hs0
      rw [heq] at h1
      rw [lookup_update_variant r id s0
        { s0 with active := false, hasStudent := false } h rfl] at h1
      rw [← Option.some.inj h1]
    · rw [heq, lookup_erase_self] at h1
      cases h1

theorem runOps_not_found (id : String) (ops : List Op) :
    ∀ r : Registry, Registry.lookup r id = none →
      Registry.lookup (runOps id r ops) id = none := by
  induction ops with
  | nil => intro r h; exact h
  | cons op rest ih =>
    intro r h
    show Registry.lookup (runOps id (applyOp id r op) rest) id = none
    rw [applyOp_not_found id r op h]
    exact ih r h

theorem runOps_cursor_mono (id : String) (ops : List Op) :
    ∀ (r : Registry) (s s1 : Session),
      Registry.lookup r id = some s →
      Registry.lookup (runOps id r ops) id = some s1 →
      s.currentIndex ≤ s1.currentIndex := by
  induction ops with
  | nil =>
    intro r s s1 h h1
    replace h1 : Registry.lookup r id = some s1 := h1
    rw [h] at h1
    rw [Option.some.inj h1]
  | cons op rest ih =>
    intro r s s1 h h1
    replace h1 : Registry.lookup (runOps id (applyOp id r op) rest) id = some s1 := h1
    cases hmid : Registry.lookup (applyOp id r op) id with
    | none =>
      rw [runOps_not_found id rest _ hmid] at h1
      cases h1
    | some smid =>
      exact le_trans (applyOp_cursor_mono id r op s smid h hmid)
        (ih _ smid s1 hmid h1)

/-! ### Closed forms of `stopSession` under each branch -/

theorem stopSession_save_eq (r : Registry) (id t : String) (s : Session)
    (hfind : Registry.lookup r id = some s) (ht : s.teacherId = t)
    (hne : s.records ≠ []) :
    stopSession r id t true true =
      (Registry.erase
         (Registry.update r { s with active := false, hasStudent := false }) id,
       .ok (.saved (buildRecords s).length
         ((List.filter (fun q => decide (q.2 = Status.present)) (buildRecords s)).length)
         ((buildRecords s).length -
           (List.filter (fun q => decide (q.2 = Status.present)) (buildRecords s)).length)),
       some ⟨s.classId, t, s.date, buildRecords s⟩) := by
  unfold stopSession
  rw [hfind]
  dsimp only
  rw [if_neg (by simp [ht])]
  have hemp : s.records.isEmpty = false := by simpa [List.isEmpty_iff] using hne
  simp only [hemp]
  rfl

theorem stopSession_nosave_eq (r : Registry) (id t : String) (s : Session)
    (ok : Bool) (hfind : Registry.lookup r id = some s) (ht : s.teacherId = t)
    (hemp : s.records = []) :
    stopSession r id t true ok =
      (Registry.erase
         (Registry.update r { s with active := false, hasStudent := false }) id,
       .ok .notSaved, none) := by
  unfold stopSession
  rw [hfind]
  dsimp only
  rw [if_neg (by simp [ht])]
  have hb : s.records.isEmpty = true := by simp [List.isEmpty_iff, hemp]
  simp only [hb]
  rfl

theorem stopSession_fail_eq (r : Registry) (id t : String) (s : Session)
    (hfind : Registry.lookup r id = some s) (ht : s.teacherId = t)
    (hne : s.records ≠ []) :
    stopSession r id t true false =
      (Registry.update r { s with active := false, hasStudent := false },
       .error .serverFailure, none) := by
  unfold stopSession
  rw [hfind]
  dsimp only
  rw [if_neg (by simp [ht])]
  have hemp : s.records.isEmpty = false := by simpa [List.isEmpty_iff] using hne
  simp only [hemp]
  rfl

/-! ### Claim C1 -/

/-- C1 counterexample: with `persist = true` but no outcome recorded yet,
`stopSession` hands nothing to the Attendance Record Store — the code only
calls the store when `Object.keys(session.records).length > 0` — although it
does remove the session.  The claim that a full roster-sized record list is
persisted even when no student has an outcome is therefore false. -/
theorem C1_counterexample :
    sessW.records = [] ∧ sessW.students.length = 2 ∧
    (stopSession [sessW] "sess1" "t1" true true).2.2 = none ∧
    (stopSession [sessW] "sess1" "t1" true true).2.1 = .ok .notSaved := by
  decide

/-- C1 (amended): `stop` with `persist = true` hands a record to the store
exactly when at least one outcome has been recorded.  In that case the
persisted list covers the entire roster, every student without a recorded
outcome is defaulted to `absent`, its length equals the roster size, it is
handed as one document for `(classId, date)`, and the session is removed
from the registry.  When no outcome is recorded the session is removed
without anything being handed to the store. -/
theorem C1_stop_persist_defaults (r : Registry) (id t : String) (s : Session)
    (hfind : Registry.lookup r id = some s) (ht : s.teacherId = t) :
    (s.records ≠ [] →
      (stopSession r id t true true).2.2 =
        some ⟨s.classId, t, s.date, buildRecords s⟩ ∧
      (buildRecords s).length = s.students.length ∧
      (∀ st ∈ s.students,
        (st.id, (recLookup s.records st.id).getD Status.absent) ∈ buildRecords s) ∧
      (∀ st ∈ s.students, recLookup s.records st.id = none →
        (st.id, Status.absent) ∈ buildRecords s) ∧
      Registry.lookup (stopSession r id t true true).1 id = none) ∧
    (s.records = [] →
      (stopSession r id t true true).2.2 = none ∧
      Registry.lookup (stopSession r id t true true).1 id = none) := by
  constructor
  · intro hne
    rw [stopSession_save_eq r id t s hfind ht hne]
    refine ⟨rfl, by simp [buildRecords], ?_, ?_, lookup_erase_self _ _⟩
    · intro st hst
      exact List.mem_map_of_mem _ hst
    · intro st hst hnone
      have hm : (st.id, (recLookup s.records st.id).getD Status.absent) ∈
          buildRecords s := List.mem_map_of_mem _ hst
      rw [hnone] at hm
      simpa using hm
  · intro hemp
    rw [stopSession_nosave_eq r id t s true hfind ht hemp]
    exact ⟨rfl, lookup_erase_self _ _⟩

/-- C1 witness: the amended claim evaluated on a concrete session with one
recorded outcome out of a two-student roster. -/
theorem C1_stop_persist_defaults_witness :
    (stopSession [sessP] "sess1" "t1" true true).2.2 =
      some ⟨"c1", "t1", "2024-01-01",
        [("stA", Status.present), ("stB", Status.absent)]⟩ ∧
    Registry.lookup (stopSession [sessP] "sess1" "t1" true true).1 "sess1" =
      none := by
  have h := (C1_stop_persist_defaults [sessP] "sess1" "t1" sessP
    (by decide) rfl).1 (by decide)
  exact ⟨by rw [h.1]; decide, h.2.2.2.2⟩

/-! ### Claim C3 -/

/-- C3 counterexample: a `stop(persist=true)` whose store write fails leaves
the session in the registry, but with `active` and `hasStudent` already
forced to `false` — not with all fields unchanged as claimed: the handler
mutates the session before calling the store. -/
theorem C3_counterexample :
    sessP.active = true ∧
    (stopSession [sessP] "sess1" "t1" true false).2.1 = .error .serverFailure ∧
    Registry.lookup (stopSession [sessP] "sess1" "t1" true false).1 "sess1" ≠
      some sessP ∧
    Registry.lookup (stopSession [sessP] "sess1" "t1" true false).1 "sess1" =
      some { sessP with active := false, hasStudent := false } := by
  decide

/-- C3 (amended): if the store write of `stop(persist=true)` fails, the
session stays in the registry with identifiers, roster, cursor and outcomes
unchanged, but with `active` and `assigned` already cleared (they are
mutated before the write).  A retried `stop(persist=true)` then succeeds and
persists exactly the record list the failed call would have persisted, so no
accumulated outcome is lost. -/
theorem C3_stop_failure_retryable (r : Registry) (id t : String) (s : Session)
    (hfind : Registry.lookup r id = some s) (ht : s.teacherId = t)
    (hne : s.records ≠ []) :
    (stopSession r id t true false).2.1 = .error .serverFailure ∧
    (stopSession r id t true false).2.2 = none ∧
    Registry.lookup (stopSession r id t true false).1 id =
      some { s with active := false, hasStudent := false } ∧
    (stopSession (stopSession r id t true false).1 id t true true).2.2 =
      some ⟨s.classId, t, s.date, buildRecords s⟩ ∧
    Registry.lookup
      (stopSession (stopSession r id t true false).1 id t true true).1 id =
      none := by
  have hfail := stopSession_fail_eq r id t s hfind ht hne
  have hl1 : Registry.lookup (stopSession r id t true false).1 id =
      some { s with active := false, hasStudent := false } := by
    rw [hfail]
    exact lookup_update_variant r id s _ hfind rfl
  have hsave := stopSession_save_eq (stopSession r id t true false).1 id t
    { s with active := false, hasStudent := false } hl1 ht hne
  refine ⟨by rw [hfail], by rw [hfail], hl1, ?_, ?_⟩
  · rw [hsave]
    rfl
  · rw [hsave]
    exact lookup_erase_self _ _

/-- C3 witness: the amended claim evaluated on a concrete session with one
recorded outcome; the failed stop keeps the (deactivated) session and the
retry persists both roster members. -/
theorem C3_stop_failure_retryable_witness :
    Registry.lookup (stopSession [sessP] "sess1" "t1" true false).1 "sess1" =
      some { sessP with active := false, hasStudent := false } ∧
    (stopSession (stopSession [sessP] "sess1" "t1" true false).1
      "sess1" "t1" true true).2.2 =
      some ⟨"c1", "t1", "2024-01-01",
        [("stA", Status.present), ("stB", Status.absent)]⟩ := by
  have h := C3_stop_failure_retryable [sessP] "sess1" "t1" sessP
    (by decide) rfl (by decide)
  exact ⟨h.2.2.1, by rw [h.2.2.2.1]; decide⟩

/-! ### Claim C9 -/

/-- C9: finalization happens at most once — any `stop` call that returns a
success (with or without persistence) removes the session from the registry,
and a `stop` on an id that is no longer registered returns exactly a
session-not-found error, leaves the registry unchanged, and hands nothing to
the store. -/
theorem C9_stop_finalizes_once :
    (∀ (r : Registry) (id t : String) (p ok : Bool) (res : StopOk),
      (stopSession r id t p ok).2.1 = .ok res →
      Registry.lookup (stopSession r id t p ok).1 id = none) ∧
    (∀ (r : Registry) (id t : String) (p ok : Bool),
      Registry.lookup r id = none →
      stopSession r id t p ok = (r, .error .sessionNotFound, none)) := by
  constructor
  · intro r id t p ok res hok
    rcases stopSession_spec r id t p ok with ⟨e, heq⟩ |
      ⟨s0, hl0, ht, ⟨heq, herr⟩ | ⟨heq, res2, hok2⟩⟩
    · rw [heq] at hok
      simp at hok
    · rw [herr] at hok
      simp at hok
    · rw [heq]
      exact lookup_erase_self _ _
  · intro r id t p ok h
    unfold stopSession
    rw [h]

/-- C9 witness: a concrete stop that persists, followed by a second stop on
the same id, which finds nothing, creates nothing, and errors. -/
theorem C9_stop_finalizes_once_witness :
    Registry.lookup (stopSession [sessP] "sess1" "t1" true true).1 "sess1" =
      none ∧
    stopSession (stopSession [sessP] "sess1" "t1" true true).1
      "sess1" "t1" true true =
      ((stopSession [sessP] "sess1" "t1" true true).1,
       .error .sessionNotFound, none) := by
  have h1 := C9_stop_finalizes_once.1 [sessP] "sess1" "t1" true true
    (.saved 2 1 1) (by decide)
  exact ⟨h1, C9_stop_finalizes_once.2 _ "sess1" "t1" true true h1⟩

/-! ### Claim C5 -/

/-- C5: in an active, assigned session, a mark whose token decodes to a
student other than the one at the cursor fails with the student-mismatch
error and returns the registry unchanged — so the outcomes,
cursor and assigned flag are untouched; and any successful mark records its
outcome precisely for the student at the cursor and for nobody else. -/
theorem C5_mark_student_mismatch :
    (∀ (r : Registry) (id sid : String) (o : Status) (s : Session)
      (cur : Student),
      Registry.lookup r id = some s →
      s.active = true → s.hasStudent = true →
      s.students.get? s.currentIndex = some cur →
      cur.id ≠ sid →
      markAttendance r id sid o = (r, .error .studentMismatch)) ∧
    (∀ (r : Registry) (id sid : String) (o : Status) (m : MarkOk)
      (s : Session),
      (markAttendance r id sid o).2 = .ok m →
      Registry.lookup r id = some s →
      ∃ cur, s.students.get? s.currentIndex = some cur ∧ cur.id = sid ∧
        Registry.lookup (markAttendance r id sid o).1 id =
          some { s with records := recSet s.records sid o
                        currentIndex := s.currentIndex + 1
                        hasStudent := false } ∧
        recLookup (recSet s.records sid o) sid = some o ∧
        (∀ other, other ≠ sid →
          recLookup (recSet s.records sid o) other =
            recLookup s.records other)) := by
  constructor
  · intro r id sid o s cur hfind ha hs hg hne
    unfold markAttendance
    rw [hfind]
    dsimp only
    rw [if_neg (by simp [ha]), if_neg (by simp [hs]), hg]
    dsimp only
    rw [if_pos hne]
  · intro r id sid o m s hok hfind
    rcases markAttendance_spec r id sid o with ⟨e, heq⟩ |
      ⟨s0, cur, m2, hl0, hg, hcid, _, _, heq⟩
    · rw [heq] at hok
      simp at hok
    · have hs0 : s0 = s := Option.some.inj (hl0.symm.trans hfind)
      subst hs0
      refine ⟨cur, hg, hcid, ?_, recLookup_set_self _ _ _, ?_⟩
      · rw [congrArg Prod.fst heq]
        dsimp only
        exact lookup_update_variant r id s0 _ hfind rfl
      · intro other hne2
        exact recLookup_set_ne _ _ _ _ hne2

/-- C5 witness: a stale token for the other roster member is rejected and
changes nothing; the matching token records exactly one outcome. -/
theorem C5_mark_student_mismatch_witness :
    markAttendance [sessA] "sess1" "stB" Status.present =
      ([sessA], .error .studentMismatch) ∧
    Registry.lookup (markAttendance [sessA] "sess1" "stA" Status.present).1
      "sess1" =
      some { sessA with records := [("stA", Status.present)]
                        currentIndex := 1
                        hasStudent := false } := by
  constructor
  · exact C5_mark_student_mismatch.1 [sessA] "sess1" "stB" Status.present
      sessA stA (by decide) rfl rfl (by decide) (by decide)
  · obtain ⟨cur, hg, hcid, hlook, hset, hother⟩ :=
      C5_mark_student_mismatch.2 [sessA] "sess1" "stA" Status.present
        (.waiting 2 2) sessA (by decide) (by decide)
    rw [hlook]
    decide

/-! ### Claim C2 -/

/-- C2 counterexample: `skip` does not share the preconditions of `mark` — on an
active session in the WAITING state (`hasStudent = false`) it succeeds and
records an absence, where the claim requires a no-student-assigned
failure.  The handler never reads `hasStudent` before mutating. -/
theorem C2_counterexample :
    sessW.hasStudent = false ∧ sessW.active = true ∧
    sessW.currentIndex < sessW.students.length ∧
    (skipStudent [sessW] "sess1" "t1").2 = .ok ⟨false, some stB⟩ ∧
    Registry.lookup (skipStudent [sessW] "sess1" "t1").1 "sess1" =
      some { sessW with records := [("stA", Status.absent)]
                        currentIndex := 1 } := by
  decide

/-- C2 (amended): `skip` succeeds whenever the session exists, belongs to
the caller, is active and the cursor is within the roster — `assigned` is
not required.  On success it atomically records `absent` for the student at
the cursor, increments the cursor and clears `assigned`; in particular,
whenever the session is also assigned (so that the preconditions of `mark`
hold for the token of the current student), `skip` produces exactly the same registry
as a device `mark(..., absent)`. -/
theorem C2_skip_effect (r : Registry) (id t : String) (s : Session)
    (hfind : Registry.lookup r id = some s) (ht : s.teacherId = t)
    (ha : s.active = true) (hlt : s.currentIndex < s.students.length) :
    (∃ res, (skipStudent r id t).2 = .ok res) ∧
    (skipStudent r id t).1 =
      Registry.update r
        { s with records := recSet s.records
                   (s.students.get ⟨s.currentIndex, hlt⟩).id .absent
                 currentIndex := s.currentIndex + 1
                 hasStudent := false } ∧
    (s.hasStudent = true →
      (skipStudent r id t).1 =
        (markAttendance r id (s.students.get ⟨s.currentIndex, hlt⟩).id
          Status.absent).1) := by
  have hskip1 : (skipStudent r id t).1 =
      Registry.update r
        { s with records := recSet s.records
                   (s.students.get ⟨s.currentIndex, hlt⟩).id .absent
                 currentIndex := s.currentIndex + 1
                 hasStudent := false } := by
    unfold skipStudent
    rw [hfind]
    dsimp only
    rw [if_neg (by simp [ht]), if_neg (by simp [ha]),
      dif_neg (by omega : ¬ s.students.length ≤ s.currentIndex)]
    by_cases hdone : s.students.length ≤ s.currentIndex + 1
    · rw [if_pos hdone]
    · rw [if_neg hdone]
  refine ⟨?_, hskip1, ?_⟩
  · unfold skipStudent
    rw [hfind]
    dsimp only
    rw [if_neg (by simp [ht]), if_neg (by simp [ha]),
      dif_neg (by omega : ¬ s.students.length ≤ s.currentIndex)]
    by_cases hdone : s.students.length ≤ s.currentIndex + 1
    · rw [if_pos hdone]; exact ⟨_, rfl⟩
    · rw [if_neg hdone]; exact ⟨_, rfl⟩
  · intro hs
    rw [hskip1]
    unfold markAttendance
    rw [hfind]
    dsimp only
    rw [if_neg (by simp [ha]), if_neg (by simp [hs]), List.get?_eq_get hlt]
    dsimp only
    rw [if_neg (by simp)]
    by_cases hdone : s.students.length ≤ s.currentIndex + 1
    · rw [if_pos hdone]
    · rw [if_neg hdone]

/-- C2 witness: on a concrete assigned session, `skip` and
`mark(..., absent)` land in the identical registry, with the cursor student
recorded absent. -/
theorem C2_skip_effect_witness :
    (skipStudent [sessA] "sess1" "t1").1 =
      (markAttendance [sessA] "sess1" "stA" Status.absent).1 ∧
    Registry.lookup (skipStudent [sessA] "sess1" "t1").1 "sess1" =
      some { sessA with records := [("stA", Status.absent)]
                        currentIndex := 1
                        hasStudent := false } := by
  have h := C2_skip_effect [sessA] "sess1" "t1" sessA (by decide) rfl rfl
    (by decide)
  constructor
  · exact h.2.2 rfl
  · rw [h.2.1]
    decide

/-! ### Claim C6 -/

/-- C6: `assign` is idempotent while a student is assigned.  In the WAITING
state the first call hands out the student at the cursor and changes
nothing but the `assigned` flag; every further call without an intervening
mark or skip returns the very same student and leaves the registry
completely unchanged, for any number of repetitions. -/
theorem C6_assign_idempotent (r : Registry) (id t : String) (s : Session)
    (hlt : s.currentIndex < s.students.length)
    (hfind : Registry.lookup r id = some s) (ht : s.teacherId = t)
    (ha : s.active = true) (hs : s.hasStudent = false) :
    nextStudent r id t =
      (Registry.update r { s with hasStudent := true },
       .ok (.assigned false (s.students.get ⟨s.currentIndex, hlt⟩)
         (s.currentIndex + 1) s.students.length)) ∧
    Registry.lookup (Registry.update r { s with hasStudent := true }) id =
      some { s with hasStudent := true } ∧
    nextStudent (Registry.update r { s with hasStudent := true }) id t =
      (Registry.update r { s with hasStudent := true },
       .ok (.assigned true (s.students.get ⟨s.currentIndex, hlt⟩)
         (s.currentIndex + 1) s.students.length)) ∧
    (∀ n : Nat,
      assignIter id t n (Registry.update r { s with hasStudent := true }) =
        Registry.update r { s with hasStudent := true }) := by
  have hlook : Registry.lookup (Registry.update r { s with hasStudent := true })
      id = some { s with hasStudent := true } :=
    lookup_update_variant r id s _ hfind rfl
  have hfirst : nextStudent r id t =
      (Registry.update r { s with hasStudent := true },
       .ok (.assigned false (s.students.get ⟨s.currentIndex, hlt⟩)
         (s.currentIndex + 1) s.students.length)) := by
    unfold nextStudent
    rw [hfind]
    dsimp only
    rw [if_neg (by simp [ht]), if_neg (by simp [ha]),
      dif_neg (by omega : ¬ s.students.length ≤ s.currentIndex),
      if_neg (by simp [hs])]
  have hagain : nextStudent (Registry.update r { s with hasStudent := true })
      id t =
      (Registry.update r { s with hasStudent := true },
       .ok (.assigned true (s.students.get ⟨s.currentIndex, hlt⟩)
         (s.currentIndex + 1) s.students.length)) := by
    unfold nextStudent
    rw [hlook]
    dsimp only
    rw [if_neg (by simp [ht]), if_neg (by simp [ha]),
      dif_neg (by simpa using (by omega : ¬ s.students.length ≤ s.currentIndex)),
      if_pos (by simp)]
  refine ⟨hfirst, hlook, hagain, ?_⟩
  intro n
  induction n with
  | zero => rfl
  | succ k ih =>
    show assignIter id t k
      (nextStudent (Registry.update r { s with hasStudent := true }) id t).1 =
      Registry.update r { s with hasStudent := true }
    rw [hagain]
    exact ih

/-- C6 witness: on a concrete WAITING session the first assign returns the
cursor student and flips the flag; the second returns the same student and
five further assigns leave the registry fixed. -/
theorem C6_assign_idempotent_witness :
    (nextStudent [sessW] "sess1" "t1").2 = .ok (.assigned false stA 1 2) ∧
    (nextStudent (nextStudent [sessW] "sess1" "t1").1 "sess1" "t1").2 =
      .ok (.assigned true stA 1 2) ∧
    assignIter "sess1" "t1" 5 (nextStudent [sessW] "sess1" "t1").1 =
      (nextStudent [sessW] "sess1" "t1").1 := by
  have h := C6_assign_idempotent [sessW] "sess1" "t1" sessW (by decide)
    (by decide) rfl rfl rfl
  refine ⟨?_, ?_, ?_⟩
  · rw [congrArg Prod.snd h.1]
    decide
  · rw [congrArg Prod.fst h.1]
    rw [congrArg Prod.snd h.2.2.1]
    decide
  · rw [congrArg Prod.fst h.1]
    exact h.2.2.2 5

/-! ### Counting machinery for the single-active-session invariant -/

theorem countP_map_eq_of_eq (l : List Session) (g : Session → Session)
    (p : Session → Bool) (h : ∀ x ∈ l, p (g x) = p x) :
    List.countP p (List.map g l) = List.countP p l := by
  rw [List.countP_map]
  exact Nat.le_antisymm
    (List.countP_mono_left (fun x hx hpx => by
      have hh := h x hx
      simpa [hh] using hpx))
    (List.countP_mono_left (fun x hx hpx => by
      have hh := h x hx
      simpa [hh] using hpx))

theorem countP_map_le_of_imp (l : List Session) (g : Session → Session)
    (p : Session → Bool) (h : ∀ x ∈ l, p (g x) = true → p x = true) :
    List.countP p (List.map g l) ≤ List.countP p l := by
  rw [List.countP_map]
  exact List.countP_mono_left (fun x hx hpx => h x hx (by simpa using hpx))

theorem countP_or_le (l : List Session) (p q : Session → Bool) :
    List.countP (fun x => p x || q x) l ≤
      List.countP p l + List.countP q l := by
  induction l with
  | nil => simp
  | cons a rest ih =>
    simp only [List.countP_cons]
    by_cases hp : p a = true <;> by_cases hq : q a = true <;>
      simp [hp, hq] <;> omega

theorem countP_map_le_add (l : List Session) (g : Session → Session)
    (p q : Session → Bool)
    (h : ∀ x ∈ l, p (g x) = true → p x = true ∨ q x = true) :
    List.countP p (List.map g l) ≤
      List.countP p l + List.countP q l := by
  rw [List.countP_map]
  calc List.countP (p ∘ g) l ≤ List.countP (fun x => p x || q x) l :=
        List.countP_mono_left (fun x hx hpx => by
          rcases h x hx (by simpa using hpx) with h1 | h1 <;> simp [h1])
    _ ≤ List.countP p l + List.countP q l := countP_or_le l p q

theorem countP_filter_not (l : List Session) (p : Session → Bool) :
    List.countP p (List.filter (fun x => !(p x)) l) = 0 := by
  induction l with
  | nil => rfl
  | cons a rest ih =>
    by_cases hp : p a = true
    · simp [List.filter_cons, hp, ih]
    · simp [List.filter_cons, hp, List.countP_cons, ih]

theorem countP_id_le_one (l : List Session) (nid : String)
    (hnd : (sessionIds l).Nodup) :
    List.countP (fun x => decide (x.sessionId = nid)) l ≤ 1 := by
  induction l with
  | nil => simp
  | cons a rest ih =>
    simp only [sessionIds, List.map_cons, List.nodup_cons] at hnd
    by_cases ha : a.sessionId = nid
    · have hz : List.countP (fun x => decide (x.sessionId = nid)) rest = 0 := by
        rw [List.countP_eq_zero]
        intro x hx
        simp only [decide_eq_true_eq]
        intro hxe
        exact hnd.1 (by rw [ha, ← hxe]; exact List.mem_map_of_mem _ hx)
      simp [List.countP_cons, ha, hz]
    · simp only [List.countP_cons, ha]
      simpa using ih hnd.2

theorem sessionIds_update (r : Registry) (s1 : Session) :
    sessionIds (Registry.update r s1) = sessionIds r := by
  unfold sessionIds Registry.update
  rw [List.map_map]
  apply List.map_congr_left
  intro a ha
  by_cases h : a.sessionId = s1.sessionId <;> simp [h]

theorem lookup_unique (r : Registry) (id : String) (s : Session)
    (hnd : (sessionIds r).Nodup) (hfind : Registry.lookup r id = some s) :
    ∀ x ∈ r, x.sessionId = id → x = s := by
  induction r with
  | nil => intro x hx; cases hx
  | cons a rest ih =>
    simp only [sessionIds, List.map_cons, List.nodup_cons] at hnd
    intro x hx hxid
    rcases List.mem_cons.mp hx with rfl | hxr
    · rw [lookup_cons, if_pos hxid] at hfind
      exact Option.some.inj hfind
    · by_cases haid : a.sessionId = id
      · exact absurd (by rw [haid, ← hxid]; exact List.mem_map_of_mem _ hxr)
          hnd.1
      · rw [lookup_cons, if_neg haid] at hfind
        exact ih hnd.2 hfind x hxr hxid

theorem mem_update (r : Registry) (s1 x : Session)
    (h : x ∈ Registry.update r s1) : x = s1 ∨ x ∈ r := by
  obtain ⟨y, hy, hxy⟩ := List.mem_map.mp h
  by_cases hid : y.sessionId = s1.sessionId
  · left; rw [← hxy]; simp [hid]
  · right; rw [← hxy]; simpa [hid] using hy

theorem mem_set (r : Registry) (s1 x : Session)
    (h : x ∈ Registry.set r s1) : x = s1 ∨ x ∈ r := by
  unfold Registry.set at h
  by_cases hc : List.any r (fun t => decide (t.sessionId = s1.sessionId)) = true
  · rw [if_pos hc] at h
    exact mem_update r s1 x h
  · rw [if_neg hc] at h
    rcases List.mem_append.mp h with h1 | h2
    · exact Or.inr h1
    · exact Or.inl (by simpa using h2)

theorem wellFormed_update_same (r : Registry) (id : String) (s s1 : Session)
    (hnd : (sessionIds r).Nodup) (hcnt : ∀ t2, activeCount r t2 ≤ 1)
    (hfind : Registry.lookup r id = some s)
    (hid : s1.sessionId = s.sessionId)
    (hteach : s1.teacherId = s.teacherId) (hact : s1.active = s.active) :
    WellFormed (Registry.update r s1) := by
  refine ⟨by rw [sessionIds_update]; exact hnd, fun t2 => ?_⟩
  have hcg : ∀ x ∈ r,
      (decide ((if x.sessionId = s1.sessionId then s1 else x).teacherId = t2) &&
        (if x.sessionId = s1.sessionId then s1 else x).active) =
      (decide (x.teacherId = t2) && x.active) := by
    intro x hx
    by_cases hxid : x.sessionId = s1.sessionId
    · simp only [if_pos hxid]
      have hx_eq : x = s := lookup_unique r id s hnd hfind x hx
        (by rw [hxid, hid]; exact (lookup_mem r id s hfind).2)
      rw [hx_eq, hteach, hact]
    · simp only [if_neg hxid]
  show List.countP (fun s2 => decide (s2.teacherId = t2) && s2.active)
    (List.map (fun t3 => if t3.sessionId = s1.sessionId then s1 else t3) r) ≤ 1
  exact le_trans (le_of_eq (countP_map_eq_of_eq r _ _ hcg)) (hcnt t2)

theorem wellFormed_update_inactive (r : Registry) (s1 : Session)
    (hnd : (sessionIds r).Nodup) (hcnt : ∀ t2, activeCount r t2 ≤ 1)
    (hact : s1.active = false) :
    WellFormed (Registry.update r s1) := by
  refine ⟨by rw [sessionIds_update]; exact hnd, fun t2 => ?_⟩
  have himp : ∀ x ∈ r,
      (decide ((if x.sessionId = s1.sessionId then s1 else x).teacherId = t2) &&
        (if x.sessionId = s1.sessionId then s1 else x).active) = true →
      (decide (x.teacherId = t2) && x.active) = true := by
    intro x hx hpx
    by_cases hxid : x.sessionId = s1.sessionId
    · rw [if_pos hxid] at hpx
      rw [hact] at hpx
      simp at hpx
    · rwa [if_neg hxid] at hpx
  show List.countP (fun s2 => decide (s2.teacherId = t2) && s2.active)
    (List.map (fun t3 => if t3.sessionId = s1.sessionId then s1 else t3) r) ≤ 1
  exact le_trans (countP_map_le_of_imp r _ _ himp) (hcnt t2)

theorem wellFormed_erase (r : Registry) (id : String) (h : WellFormed r) :
    WellFormed (Registry.erase r id) := by
  obtain ⟨hnd, hcnt⟩ := h
  refine ⟨?_, fun t2 => ?_⟩
  · exact hnd.sublist ((List.filter_sublist r).map Session.sessionId)
  · exact le_trans ((List.filter_sublist r).countP_le _) (hcnt t2)

theorem wellFormed_evict (r : Registry) (t0 : String) (h : WellFormed r) :
    WellFormed (evictActive r t0) := by
  obtain ⟨hnd, hcnt⟩ := h
  refine ⟨?_, fun t2 => ?_⟩
  · exact hnd.sublist ((List.filter_sublist r).map Session.sessionId)
  · exact le_trans ((List.filter_sublist r).countP_le _) (hcnt t2)

theorem wellFormed_start (r : Registry) (t0 c d : String) (env : StartEnv)
    (nid : String) (now : Nat) (h : WellFormed r) :
    WellFormed (startSession r t0 c d env nid now).1 := by
  rcases startSession_spec r t0 c d env nid now with ⟨e, heq⟩ | heq
  · rw [congrArg Prod.fst heq]
    exact h
  · rw [congrArg Prod.fst heq]
    dsimp only
    have h1 : WellFormed (evictActive r t0) := wellFormed_evict r t0 h
    obtain ⟨hnd1, hcnt1⟩ := h1
    have hzero : List.countP
        (fun s2 => decide (s2.teacherId = t0) && s2.active)
        (evictActive r t0) = 0 := countP_filter_not r _
    unfold Registry.set
    by_cases hc : List.any (evictActive r t0)
        (fun x => decide (x.sessionId =
          (mkSession nid c d t0 env.roster now).sessionId)) = true
    · rw [if_pos hc]
      refine ⟨by rw [sessionIds_update]; exact hnd1, fun t2 => ?_⟩
      show List.countP (fun s2 => decide (s2.teacherId = t2) && s2.active)
        (List.map (fun t3 => if t3.sessionId =
          (mkSession nid c d t0 env.roster now).sessionId
          then mkSession nid c d t0 env.roster now else t3)
          (evictActive r t0)) ≤ 1
      by_cases ht2 : t2 = t0
      · have hle1 := countP_map_le_add (evictActive r t0)
          (fun t3 => if t3.sessionId =
            (mkSession nid c d t0 env.roster now).sessionId
            then mkSession nid c d t0 env.roster now else t3)
          (fun s2 => decide (s2.teacherId = t2) && s2.active)
          (fun x => decide (x.sessionId = nid))
          (by
            intro x hx hpx
            dsimp only at hpx ⊢
            by_cases hxid : x.sessionId =
                (mkSession nid c d t0 env.roster now).sessionId
            · right
              simpa using hxid
            · left
              rwa [if_neg hxid] at hpx)
        have hle2 := countP_id_le_one (evictActive r t0) nid hnd1
        have hz2 : List.countP
            (fun s2 => decide (s2.teacherId = t2) && s2.active)
            (evictActive r t0) = 0 := by rw [ht2]; exact hzero
        omega
      · have himp : ∀ x ∈ evictActive r t0,
            (decide ((if x.sessionId =
                (mkSession nid c d t0 env.roster now).sessionId
                then mkSession nid c d t0 env.roster now
                else x).teacherId = t2) &&
              (if x.sessionId =
                (mkSession nid c d t0 env.roster now).sessionId
                then mkSession nid c d t0 env.roster now else x).active)
              = true →
            (decide (x.teacherId = t2) && x.active) = true := by
          intro x hx hpx
          by_cases hxid : x.sessionId =
              (mkSession nid c d t0 env.roster now).sessionId
          · rw [if_pos hxid] at hpx
            have : t0 = t2 := by simpa [mkSession] using hpx
            exact absurd this.symm ht2
          · rwa [if_neg hxid] at hpx
        exact le_trans (countP_map_le_of_imp _ _ _ himp) (hcnt1 t2)
    · rw [if_neg hc]
      have hfresh : ∀ x ∈ evictActive r t0, ¬ x.sessionId = nid := by
        intro x hx hxe
        apply hc
        rw [List.any_eq_true]
        exact ⟨x, hx, by simpa [mkSession] using hxe⟩
      refine ⟨?_, fun t2 => ?_⟩
      · show (sessionIds (evictActive r t0 ++
          [mkSession nid c d t0 env.roster now])).Nodup
        unfold sessionIds
        rw [List.map_append]
        refine List.Nodup.append hnd1 (List.nodup_singleton _) ?_
        intro a ha hmem
        simp only [List.map_cons, List.map_nil, List.mem_singleton] at hmem
        obtain ⟨x, hx, hxa⟩ := List.mem_map.mp ha
        exact hfresh x hx (by rw [hxa, hmem]; rfl)
      · show List.countP (fun s2 => decide (s2.teacherId = t2) && s2.active)
          (evictActive r t0 ++ [mkSession nid c d t0 env.roster now]) ≤ 1
        rw [List.countP_append]
        by_cases ht2 : t2 = t0
        · have hz2 : List.countP
              (fun s2 => decide (s2.teacherId = t2) && s2.active)
              (evictActive r t0) = 0 := by rw [ht2]; exact hzero
          rw [hz2]
          simp [List.countP_cons, mkSession, ht2]
        · have hnew : (decide ((mkSession nid c d t0 env.roster now).teacherId
              = t2) && (mkSession nid c d t0 env.roster now).active) = false := by
            simp [mkSession]
            exact fun e => ht2 (Eq.symm e)
          have hone : List.countP
              (fun s2 => decide (s2.teacherId = t2) && s2.active)
              [mkSession nid c d t0 env.roster now] = 0 := by
            simp [List.countP_cons, hnew]
          have hc1 : List.countP
              (fun s2 => decide (s2.teacherId = t2) && s2.active)
              (evictActive r t0) ≤ 1 := hcnt1 t2
          omega

theorem wellFormed_applyRegOp (r : Registry) (op : RegOp)
    (h : WellFormed r) : WellFormed (applyRegOp r op) := by
  obtain ⟨hnd, hcnt⟩ := h
  cases op with
  | start t c d env nid now =>
    exact wellFormed_start r t c d env nid now ⟨hnd, hcnt⟩
  | stop id t p ok =>
    show WellFormed (stopSession r id t p ok).1
    rcases stopSession_spec r id t p ok with ⟨e, heq⟩ |
      ⟨s0, hl0, ht, ⟨heq, _⟩ | ⟨heq, _⟩⟩
    · rw [congrArg Prod.fst heq]
      exact ⟨hnd, hcnt⟩
    · rw [heq]
      exact wellFormed_update_inactive r _ hnd hcnt rfl
    · rw [heq]
      exact wellFormed_erase _ id (wellFormed_update_inactive r _ hnd hcnt rfl)
  | assign id t =>
    show WellFormed (nextStudent r id t).1
    rcases nextStudent_spec r id t with heq | ⟨s0, hle, hl0, _, _, _, heq⟩
    · rw [heq]
      exact ⟨hnd, hcnt⟩
    · rw [congrArg Prod.fst heq]
      dsimp only
      exact wellFormed_update_same r id s0 _ hnd hcnt hl0 rfl rfl rfl
  | mark id sid o =>
    show WellFormed (markAttendance r id sid o).1
    rcases markAttendance_spec r id sid o with ⟨e, heq⟩ |
      ⟨s0, cur, m, hl0, _, _, _, _, heq⟩
    · rw [congrArg Prod.fst heq]
      exact ⟨hnd, hcnt⟩
    · rw [congrArg Prod.fst heq]
      dsimp only
      exact wellFormed_update_same r id s0 _ hnd hcnt hl0 rfl rfl rfl
  | skipCur id t =>
    show WellFormed (skipStudent r id t).1
    rcases skipStudent_spec r id t with ⟨e, heq⟩ |
      ⟨s0, res, hle, hl0, _, _, heq⟩
    · rw [congrArg Prod.fst heq]
      exact ⟨hnd, hcnt⟩
    · rw [congrArg Prod.fst heq]
      dsimp only
      exact wellFormed_update_same r id s0 _ hnd hcnt hl0 rfl rfl rfl

theorem wellFormed_reachable (r : Registry) (h : Reachable r) :
    WellFormed r := by
  induction h with
  | init => exact ⟨List.nodup_nil, fun t => by simp [activeCount]⟩
  | step r2 op hr ih => exact wellFormed_applyRegOp r2 op ih

/-! ### Claim C8 -/

/-- C8: in every registry reachable from the empty map by handler calls, at
most one session per teacher is active; and a successful `start` leaves, as
the only possibly-active session of that teacher, the freshly inserted one —
every previously active session of the teacher (necessarily under a
different id) is gone from the registry. -/
theorem C8_single_active_session :
    (∀ r : Registry, Reachable r → ∀ t, activeCount r t ≤ 1) ∧
    (∀ (r : Registry) (t c d : String) (env : StartEnv) (nid : String)
      (now : Nat) (res : StartOk),
      (startSession r t c d env nid now).2 = .ok res →
      (∀ s2 ∈ (startSession r t c d env nid now).1,
        s2.teacherId = t → s2.active = true →
        s2 = mkSession nid c d t env.roster now) ∧
      (∀ s2 ∈ r, s2.teacherId = t → s2.active = true →
        s2.sessionId ≠ nid →
        ¬ s2 ∈ (startSession r t c d env nid now).1)) := by
  constructor
  · intro r hr t
    exact (wellFormed_reachable r hr).2 t
  · intro r t c d env nid now res hok
    rcases startSession_spec r t c d env nid now with ⟨e, heq⟩ | heq
    · rw [heq] at hok
      simp at hok
    · constructor
      · intro s2 hmem hteach hact
        rw [congrArg Prod.fst heq] at hmem
        dsimp only at hmem
        rcases mem_set _ _ _ hmem with h1 | h1
        · exact h1
        · exfalso
          have hpred := List.of_mem_filter h1
          simp [hteach, hact] at hpred
      · intro s2 hmem hteach hact hid hcontra
        rw [congrArg Prod.fst heq] at hcontra
        dsimp only at hcontra
        rcases mem_set _ _ _ hcontra with h1 | h1
        · exact hid (by rw [h1]; rfl)
        · have hpred := List.of_mem_filter h1
          simp [hteach, hact] at hpred

/-- C8 witness: the reachable one-session registry satisfies the invariant,
and the session active there is evicted by the next successful start of
the same teacher. -/
theorem C8_single_active_session_witness :
    activeCount [sessW] "t1" ≤ 1 ∧
    ¬ sessW ∈ (startSession [sessW] "t1" "c1" "2024-01-02"
      ⟨true, true, false, [stA]⟩ "new1" 10).1 := by
  constructor
  · have happ : applyRegOp []
        (.start "t1" "c1" "2024-01-01" ⟨true, true, false, [stA, stB]⟩
          "sess1" 5) = [sessW] := by decide
    have hreach : Reachable [sessW] :=
      happ ▸ Reachable.step [] _ Reachable.init
    exact C8_single_active_session.1 [sessW] hreach "t1"
  · exact (C8_single_active_session.2 [sessW] "t1" "c1" "2024-01-02"
      ⟨true, true, false, [stA]⟩ "new1" 10 ⟨"new1", 1, false⟩ (by decide)).2
      sessW (by simp) rfl rfl (by decide)

/-! ### Claim C7 -/

/-- C7: over any sequence of assign / mark / skip / current / status / stop
calls aimed at one session, the cursor of the session never decreases; each
successful mark and each successful skip advances it by exactly 1; a failed
mark or skip returns the registry unchanged, and an assign or a stop that
leaves the session in the registry leaves its cursor exactly where it was
(the two read-only polls do not touch the registry at all). -/
theorem C7_cursor_monotone :
    (∀ (sessionId : String) (ops : List Op) (r : Registry) (s s1 : Session),
      Registry.lookup r sessionId = some s →
      Registry.lookup (runOps sessionId r ops) sessionId = some s1 →
      s.currentIndex ≤ s1.currentIndex) ∧
    (∀ (r : Registry) (id sid : String) (o : Status) (m : MarkOk)
      (s s1 : Session),
      (markAttendance r id sid o).2 = .ok m →
      Registry.lookup r id = some s →
      Registry.lookup (markAttendance r id sid o).1 id = some s1 →
      s1.currentIndex = s.currentIndex + 1) ∧
    (∀ (r : Registry) (id t : String) (res : SkipOk) (s s1 : Session),
      (skipStudent r id t).2 = .ok res →
      Registry.lookup r id = some s →
      Registry.lookup (skipStudent r id t).1 id = some s1 →
      s1.currentIndex = s.currentIndex + 1) ∧
    (∀ (r : Registry) (id sid : String) (o : Status) (e : MarkError),
      (markAttendance r id sid o).2 = .error e →
      (markAttendance r id sid o).1 = r) ∧
    (∀ (r : Registry) (id t : String) (e : SkipError),
      (skipStudent r id t).2 = .error e →
      (skipStudent r id t).1 = r) ∧
    (∀ (r : Registry) (id t : String) (s s1 : Session),
      Registry.lookup r id = some s →
      Registry.lookup (nextStudent r id t).1 id = some s1 →
      s1.currentIndex = s.currentIndex) ∧
    (∀ (r : Registry) (id t : String) (p ok : Bool) (s s1 : Session),
      Registry.lookup r id = some s →
      Registry.lookup (stopSession r id t p ok).1 id = some s1 →
      s1.currentIndex = s.currentIndex) := by
  refine ⟨?_, ?_, ?_, ?_, ?_, ?_, ?_⟩
  · intro sessionId ops r s s1 h h1
    exact runOps_cursor_mono sessionId ops r s s1 h h1
  · intro r id sid o m s s1 hok h h1
    rcases markAttendance_spec r id sid o with ⟨e, heq⟩ |
      ⟨s0, cur, m2, hl0, _, _, _, _, heq⟩
    · rw [heq] at hok
      simp at hok
    · have hs0 : s0 = s := Option.some.inj (hl0.symm.trans h)
      subst hs0
      rw [congrArg Prod.fst heq] at h1
      dsimp only at h1
      rw [lookup_update_variant r id s0
        { s0 with records := recSet s0.records sid o
                  currentIndex := s0.currentIndex + 1
                  hasStudent := false } h rfl] at h1
      rw [← Option.some.inj h1]
  · intro r id t res s s1 hok h h1
    rcases skipStudent_spec r id t with ⟨e, heq⟩ |
      ⟨s0, res2, hle, hl0, _, _, heq⟩
    · rw [heq] at hok
      simp at hok
    · have hs0 : s0 = s := Option.some.inj (hl0.symm.trans h)
      subst hs0
      rw [congrArg Prod.fst heq] at h1
      dsimp only at h1
      rw [lookup_update_variant r id s0
        { s0 with records := recSet s0.records
                    (s0.students.get ⟨s0.currentIndex, hle⟩).id .absent
                  currentIndex := s0.currentIndex + 1
                  hasStudent := false } h rfl] at h1
      rw [← Option.some.inj h1]
  · intro r id sid o e herr
    rcases markAttendance_spec r id sid o with ⟨e2, heq⟩ |
      ⟨s0, cur, m2, hl0, _, _, _, _, heq⟩
    · rw [congrArg Prod.fst heq]
    · rw [congrArg Prod.snd heq] at herr
      simp at herr
  · intro r id t e herr
    rcases skipStudent_spec r id t with ⟨e2, heq⟩ |
      ⟨s0, res2, hle, hl0, _, _, heq⟩
    · rw [congrArg Prod.fst heq]
    · rw [congrArg Prod.snd heq] at herr
      simp at herr
  · intro r id t s s1 h h1
    rcases nextStudent_spec r id t with heq | ⟨s0, hle, hl0, _, _, _, heq⟩
    · rw [heq, h] at h1
      rw [Option.some.inj h1]
    · have hs0 : s0 = s := Option.some.inj (hl0.symm.trans h)
      subst hs0
      rw [congrArg Prod.fst heq] at h1
      dsimp only at h1
      rw [lookup_update_variant r id s0 { s0 with hasStudent := true }
        h rfl] at h1
      rw [← Option.some.inj h1]
  · intro r id t p ok s s1 h h1
    rcases stopSession_spec r id t p ok with ⟨e, heq⟩ |
      ⟨s0, hl0, _, ⟨heq, _⟩ | ⟨heq, _⟩⟩
    · rw [congrArg Prod.fst heq] at h1
      dsimp only at h1
      rw [h] at h1
      rw [Option.some.inj h1]
    · have hs0 : s0 = s := Option.some.inj (hl0.symm.trans h)
      subst hs0
      rw [heq] at h1
      rw [lookup_update_variant r id s0
        { s0 with active := false, hasStudent := false } h rfl] at h1
      rw [← Option.some.inj h1]
    · rw [heq, lookup_erase_self] at h1
      cases h1

/-- C7 witness: a concrete assign–mark–skip run advances the cursor from 0
to 2 and the sequence bound is instantiated on it. -/
theorem C7_cursor_monotone_witness :
    Registry.lookup (runOps "sess1" [sessW] opsABC) "sess1" = some sessDone ∧
    sessW.currentIndex ≤ sessDone.currentIndex :=
  ⟨by decide,
   C7_cursor_monotone.1 "sess1" opsABC [sessW] sessW sessDone
     (by decide) (by decide)⟩

/-! ### Claim C4 -/

/-- C4: the unauthenticated device poll returns exactly one of five answers
determined by the derived state of the session: no-session for an unknown id;
ended when `active` is false; done, with the running present/absent counts,
when the cursor equals the roster length; waiting, with no student fields,
when the session is active and unassigned; and the student at the cursor —
with the token `sessionId:studentId`, the 1-based position and the roster
total — when the session is active and assigned.  Conversely a student is
served only when `assigned` holds, so the device never sees a student the
operator has not handed over. -/
theorem C4_current_answers :
    (∀ (r : Registry) (id : String), Registry.lookup r id = none →
      getCurrentStudent r id = .noSession) ∧
    (∀ (r : Registry) (id : String) (s : Session),
      Registry.lookup r id = some s → s.active = false →
      getCurrentStudent r id = .ended) ∧
    (∀ (r : Registry) (id : String) (s : Session),
      Registry.lookup r id = some s → s.active = true →
      s.currentIndex = s.students.length →
      getCurrentStudent r id =
        .done s.students.length (countStatus s.records .present)
          (countStatus s.records .absent)) ∧
    (∀ (r : Registry) (id : String) (s : Session),
      Registry.lookup r id = some s → s.active = true →
      s.hasStudent = false → s.currentIndex < s.students.length →
      getCurrentStudent r id = .waiting) ∧
    (∀ (r : Registry) (id : String) (s : Session)
      (hlt : s.currentIndex < s.students.length),
      Registry.lookup r id = some s → s.active = true →
      s.hasStudent = true →
      getCurrentStudent r id =
        .assigned (s.students.get ⟨s.currentIndex, hlt⟩).name
          (s.students.get ⟨s.currentIndex, hlt⟩).rollNo
          (s.students.get ⟨s.currentIndex, hlt⟩).sec
          (id ++ ":" ++ (s.students.get ⟨s.currentIndex, hlt⟩).id)
          (s.currentIndex + 1) s.students.length) ∧
    (∀ (r : Registry) (id : String) (s : Session) (nm : String) (roll : Nat)
      (sec tok : String) (pos tot : Nat),
      Registry.lookup r id = some s →
      getCurrentStudent r id = .assigned nm roll sec tok pos tot →
      s.active = true ∧ s.hasStudent = true ∧
      s.currentIndex < s.students.length) := by
  refine ⟨?_, ?_, ?_, ?_, ?_, ?_⟩
  · intro r id h
    unfold getCurrentStudent
    rw [h]
  · intro r id s hfind ha
    unfold getCurrentStudent
    rw [hfind]
    dsimp only
    rw [if_pos ha]
  · intro r id s hfind ha hc
    unfold getCurrentStudent
    rw [hfind]
    dsimp only
    rw [if_neg (by simp [ha]), dif_pos (by omega)]
  · intro r id s hfind ha hs hlt
    unfold getCurrentStudent
    rw [hfind]
    dsimp only
    rw [if_neg (by simp [ha]), dif_neg (by omega), if_pos hs]
  · intro r id s hlt hfind ha hs
    unfold getCurrentStudent
    rw [hfind]
    dsimp only
    rw [if_neg (by simp [ha]), dif_neg (by omega), if_neg (by simp [hs])]
  · intro r id s nm roll sec tok pos tot hfind h2
    unfold getCurrentStudent at h2
    rw [hfind] at h2
    dsimp only at h2
    by_cases ha : s.active = false
    · rw [if_pos ha] at h2
      cases h2
    · rw [if_neg ha] at h2
      by_cases hle : s.students.length ≤ s.currentIndex
      · rw [dif_pos hle] at h2
        cases h2
      · rw [dif_neg hle] at h2
        by_cases hsf : s.hasStudent = false
        · rw [if_pos hsf] at h2
          cases h2
        · exact ⟨by simpa using ha, by simpa using hsf, by omega⟩

/-- C4 witness: the five answers on concrete registries — unknown id,
stopped session, exhausted roster, waiting session, assigned session. -/
theorem C4_current_answers_witness :
    getCurrentStudent [sessW] "nope" = .noSession ∧
    getCurrentStudent [{ sessW with active := false }] "sess1" = .ended ∧
    getCurrentStudent [{ sessW with currentIndex := 2 }] "sess1" =
      .done 2 0 0 ∧
    getCurrentStudent [sessW] "sess1" = .waiting ∧
    getCurrentStudent [sessA] "sess1" =
      .assigned "Alice" 1 "A" "sess1:stA" 1 2 := by
  refine ⟨C4_current_answers.1 [sessW] "nope" (by decide),
    C4_current_answers.2.1 _ "sess1" { sessW with active := false }
      (by decide) rfl, ?_,
    C4_current_answers.2.2.2.1 [sessW] "sess1" sessW (by decide) rfl rfl
      (by decide), ?_⟩
  · have h := C4_current_answers.2.2.1 [{ sessW with currentIndex := 2 }]
      "sess1" { sessW with currentIndex := 2 } (by decide) rfl (by decide)
    rw [h]
    decide
  · have h := C4_current_answers.2.2.2.2.1 [sessA] "sess1" sessA (by decide)
      (by decide) rfl rfl
    rw [h]
    decide

/-! ### Claim C10 -/

theorem pickActive_no_active (l : List Session) (best : Option Session)
    (h : ∀ s ∈ l, s.active = false) : pickActive best l = best := by
  induction l generalizing best with
  | nil => rfl
  | cons a rest ih =>
    have ha := h a (by simp)
    simp only [pickActive, ha]
    exact ih best (fun s hs => h s (by simp [hs]))

theorem pickActive_some_spec (l : List Session) :
    ∀ (best : Option Session) (b : Session), pickActive best l = some b →
      ((b ∈ l ∧ b.active = true) ∨ best = some b) ∧
      (∀ s ∈ l, s.active = true → s.createdAt ≤ b.createdAt) ∧
      (∀ c, best = some c → c.createdAt ≤ b.createdAt) := by
  induction l with
  | nil =>
    intro best b h
    refine ⟨Or.inr h, by simp, ?_⟩
    intro c hc
    rw [hc] at h
    rw [Option.some.inj h]
  | cons a rest ih =>
    intro best b h
    by_cases ha : a.active = true
    · cases best with
      | none =>
        simp only [pickActive, ha, if_true] at h
        obtain ⟨hmem, hmax, hbest⟩ := ih (some a) b h
        have hab : a.createdAt ≤ b.createdAt := hbest a rfl
        refine ⟨?_, ?_, ?_⟩
        · rcases hmem with ⟨hb, hact⟩ | heq2
          · exact Or.inl ⟨by simp [hb], hact⟩
          · have : a = b := Option.some.inj heq2
            exact Or.inl ⟨by simp [← this], by rw [← this]; exact ha⟩
        · intro s hs hact
          rcases List.mem_cons.mp hs with rfl | hsr
          · exact hab
          · exact hmax s hsr hact
        · intro c hc
          cases hc
      | some bb =>
        by_cases hlt : bb.createdAt < a.createdAt
        · simp only [pickActive, ha, if_true, hlt, if_pos] at h
          obtain ⟨hmem, hmax, hbest⟩ := ih (some a) b h
          have hab : a.createdAt ≤ b.createdAt := hbest a rfl
          refine ⟨?_, ?_, ?_⟩
          · rcases hmem with ⟨hb, hact⟩ | heq2
            · exact Or.inl ⟨by simp [hb], hact⟩
            · have : a = b := Option.some.inj heq2
              exact Or.inl ⟨by simp [← this], by rw [← this]; exact ha⟩
          · intro s hs hact
            rcases List.mem_cons.mp hs with rfl | hsr
            · exact hab
            · exact hmax s hsr hact
          · intro c hc
            have : c = bb := Option.some.inj hc.symm
            rw [this]
            exact le_trans (le_of_lt hlt) hab
        · simp only [pickActive, ha, if_true, hlt, if_neg, if_false] at h
          obtain ⟨hmem, hmax, hbest⟩ := ih (some bb) b h
          have hbb : bb.createdAt ≤ b.createdAt := hbest bb rfl
          refine ⟨?_, ?_, ?_⟩
          · rcases hmem with ⟨hb, hact⟩ | heq2
            · exact Or.inl ⟨by simp [hb], hact⟩
            · exact Or.inr heq2
          · intro s hs hact
            rcases List.mem_cons.mp hs with rfl | hsr
            · exact le_trans (Nat.le_of_not_lt hlt) hbb
            · exact hmax s hsr hact
          · intro c hc
            have : c = bb := Option.some.inj hc.symm
            rw [this]
            exact hbb
    · simp only [pickActive, ha, if_false] at h
      obtain ⟨hmem, hmax, hbest⟩ := ih best b h
      refine ⟨?_, ?_, hbest⟩
      · rcases hmem with ⟨hb, hact⟩ | heq2
        · exact Or.inl ⟨by simp [hb], hact⟩
        · exact Or.inr heq2
      · intro s hs hact
        rcases List.mem_cons.mp hs with rfl | hsr
        · exact absurd hact ha
        · exact hmax s hsr hact

theorem pickActive_some_isSome (l : List Session) :
    ∀ c : Session, ∃ b, pickActive (some c) l = some b := by
  induction l with
  | nil => intro c; exact ⟨c, rfl⟩
  | cons a rest ih =>
    intro c
    by_cases ha : a.active = true
    · by_cases hlt : c.createdAt < a.createdAt
      · simpa [pickActive, ha, hlt] using ih a
      · simpa [pickActive, ha, hlt] using ih c
    · simpa [pickActive, ha] using ih c

theorem pickActive_isSome (l : List Session) :
    ∀ (best : Option Session) (s0 : Session), s0 ∈ l → s0.active = true →
      ∃ b, pickActive best l = some b := by
  induction l with
  | nil =>
    intro best s0 h
    cases h
  | cons a rest ih =>
    intro best s0 hmem hact
    by_cases ha : a.active = true
    · cases best with
      | none => simpa [pickActive, ha] using pickActive_some_isSome rest a
      | some c =>
        by_cases hlt : c.createdAt < a.createdAt
        · simpa [pickActive, ha, hlt] using pickActive_some_isSome rest a
        · simpa [pickActive, ha, hlt] using pickActive_some_isSome rest c
    · rcases List.mem_cons.mp hmem with rfl | hr
      · exact absurd hact ha
      · simpa [pickActive, ha] using ih best s0 hr hact

/-- C10: the unauthenticated discovery call is a pure function of the
registry returning only a session id: when no registered session is active
it answers "none" (null id), and when at least one is active it answers
"active" with the id of an active session whose `createdAt` is maximal
among all active sessions.  It takes no teacher identity and its answer
carries no student data. -/
theorem C10_active_discovery :
    (∀ r : Registry, (∀ s ∈ r, s.active = false) →
      getActiveSession r = .noActive) ∧
    (∀ (r : Registry) (s0 : Session), s0 ∈ r → s0.active = true →
      ∃ b : Session, b ∈ r ∧ b.active = true ∧
        getActiveSession r = .activeFound b.sessionId ∧
        ∀ s ∈ r, s.active = true → s.createdAt ≤ b.createdAt) := by
  constructor
  · intro r h
    unfold getActiveSession
    rw [pickActive_no_active r none h]
  · intro r s0 hmem hact
    obtain ⟨b, hb⟩ := pickActive_isSome r none s0 hmem hact
    obtain ⟨hmem2, hmax, _⟩ := pickActive_some_spec r none b hb
    rcases hmem2 with ⟨hbmem, hbact⟩ | heq2
    · refine ⟨b, hbmem, hbact, ?_, hmax⟩
      unfold getActiveSession
      rw [hb]
    · cases heq2

/-- C10 witness: an all-inactive registry answers none; with two active
sessions of the same teacher transiently present, the one created later is
discovered. -/
theorem C10_active_discovery_witness :
    getActiveSession [{ sessW with active := false }] = .noActive ∧
    getActiveSession [sessW, sess2] = .activeFound "sess2" := by
  constructor
  · exact C10_active_discovery.1 _ (by decide)
  · obtain ⟨b, hbmem, hbact, heq2, hmax⟩ :=
      C10_active_discovery.2 [sessW, sess2] sessW (by simp) rfl
    have h9 : sess2.createdAt ≤ b.createdAt := hmax sess2 (by simp) rfl
    rcases List.mem_cons.mp hbmem with hb1 | hb2
    · subst hb1
      exact absurd h9 (by decide)
    · have hb2e : b = sess2 := by simpa using hb2
      subst hb2e
      rw [heq2]
      rfl

end Stuma
